import Mathlib

/-!
Verification development for the `py-asyncio-iot` repository
(source: `src/app/main.py`).

The program is an asyncio orchestration demo.  We shallowly embed the
awaitables it composes: an awaitable is modelled denotationally by

  * the total simulated time it takes (tenths of a second, as `Nat`:
    `asyncio.sleep 0.1` contributes 1, `sleep 0.5` contributes 5,
    `sleep 1.0` contributes 10),
  * the ordered list of observable actions it performs (the simulated
    I/O phases / prints), each tagged with the index of the child it
    belongs to when tags matter, and
  * its result: normal return or a raised exception (`Except`).

Python exceptions are modelled by `Except String`; `await`ing a child
runs its actions and either continues or propagates the child's
exception, exactly as the `for`-loop in `run_sequence` does.
-/

namespace IoT

/-- An observable action performed by an awaitable: `tag` records which
child of a combinator emitted it (0 when irrelevant), `label` names the
simulated I/O action or print. -/
structure Event where
  tag : Nat
  label : String
deriving DecidableEq, Repr

/-- Exceptions are identified by their message. -/
abbrev Err := String

/-- Denotation of one Python awaitable: simulated duration (tenths of a
second), the ordered trace of actions it performs, and its result. -/
structure Aw (α : Type) where
  duration : Nat
  events : List Event
  result : Except Err α
deriving Repr

/-- Awaiting `a` and then, if `a` returned normally, awaiting `b`
(Python `await a; await b` inside one coroutine: an exception raised by
`a` propagates and `b` never runs). -/
def awaitSeq (a : Aw Unit) (b : Aw Unit) : Aw Unit :=
  match a.result with
  | .error e => { duration := a.duration, events := a.events, result := .error e }
  | .ok _ =>
    { duration := a.duration + b.duration
      events := a.events ++ b.events
      result := b.result }

/-- Embedding of `run_sequence` (src/app/main.py lines 7-11):
`for function in functions: await function`.  Each child is awaited in
listed order; a raised exception propagates out of the loop, so the
remaining children are never awaited. -/
def run_sequence : List (Aw Unit) → Aw Unit
  | [] => { duration := 0, events := [], result := .ok () }
  | f :: fs =>
    match f.result with
    | .error e => { duration := f.duration, events := f.events, result := .error e }
    | .ok _ =>
      let rest := run_sequence fs
      { duration := f.duration + rest.duration
        events := f.events ++ rest.events
        result := rest.result }

/-- The earliest-completing failing child of a list of awaitables
started concurrently: `asyncio.gather` (with the default
`return_exceptions=False`, as in `run_parallel`) makes its future done
with the first exception that occurs.  Completion time of child `f` is
`f.duration`; ties are broken towards the earlier index (tasks waking at
the same loop time are served FIFO). -/
def firstFailure {α : Type} : List (Aw α) → Option (Nat × Err)
  | [] => none
  | f :: fs =>
    match f.result, firstFailure fs with
    | .error e, none => some (f.duration, e)
    | .error e, some (t, e0) =>
      if t < f.duration then some (t, e0) else some (f.duration, e)
    | .ok _, rest => rest

/-- Completion time of the whole group when every child runs to the end:
the latest child completion. -/
def maxDuration {α : Type} (fs : List (Aw α)) : Nat :=
  fs.foldr (fun f m => max f.duration m) 0

/-- Embedding of `asyncio.gather(*functions)` as awaited by
`run_parallel` (src/app/main.py lines 13-16): all children start
concurrently; if every child returns normally the gather future holds
the list of child results in input order and completes when the last
child does; if some child raises, the gather future completes with that
first exception at the moment it occurs (siblings are not cancelled, but
the awaiting coroutine resumes immediately, without their outcomes). -/
def gather {α : Type} (fs : List (Aw α)) : Nat × Except Err (List α) :=
  match firstFailure fs with
  | none => (maxDuration fs, .ok (fs.filterMap (fun f => f.result.toOption)))
  | some (t, e) => (t, .error e)

/-- Embedding of `run_parallel` (src/app/main.py lines 13-16):
`await asyncio.gather(*functions)` and return `None` — the list built by
`gather` is discarded.  The pair is (simulated duration, result). -/
def run_parallel {α : Type} (fs : List (Aw α)) : Nat × Except Err Unit :=
  ((gather fs).1, (gather fs).2.map (fun _ => ()))

/-- Mechanism behind `gather`'s result list: each child, at the moment
it completes, stores its result into the slot indexed by its position in
the input list.  `order` is the order in which the children actually
complete; slot `i` always receives child `i`'s own result `res i`. -/
def fillSlots {n : Nat} {α : Type} : List (Fin n) → (Fin n → α) → Fin n → Option α
  | [], _, _ => none
  | j :: rest, res, i =>
    if i = j then some (res j) else fillSlots rest res i

/-- A device is just a display name (src/app/main.py lines 20-26). -/
structure Device where
  name : String
deriving DecidableEq, Repr

/-- The `IoTService.devices` dict: insertion-ordered association list
with Python-dict update semantics (assigning to an existing key replaces
its value in place; a new key is appended). -/
abbrev Registry := List (String × Device)

/-- Python dict assignment `devices[k] = v`. -/
def dictInsert : Registry → String → Device → Registry
  | [], k, v => [(k, v)]
  | (k0, v0) :: rest, k, v =>
    if k0 = k then (k, v) :: rest else (k0, v0) :: dictInsert rest k v

/-- Python dict read `devices[k]`, as an `Option`. -/
def regLookup : Registry → String → Option Device
  | [], _ => none
  | (k0, v0) :: rest, k => if k0 = k then some v0 else regLookup rest k

/-- Embedding of `IoTService.register_device` (src/app/main.py lines
37-43): print, `await asyncio.sleep(1.0)`, then
`self.devices[device.name] = device`; the method returns `None`.
Result: the awaitable part and the updated registry. -/
def register_device (r : Registry) (d : Device) : Aw Unit × Registry :=
  ({ duration := 10
     events := [{ tag := 0, label := "register " ++ d.name }]
     result := .ok () },
   dictInsert r d.name d)

/-- Embedding of `IoTService.connect` (src/app/main.py lines 45-48):
`await asyncio.sleep(0.1)`; the registry is not touched. -/
def connect (r : Registry) (d : Device) : Aw Unit × Registry :=
  ({ duration := 1
     events := [{ tag := 0, label := "connect " ++ d.name }]
     result := .ok () },
   r)

/-- Embedding of `IoTService.disconnect` (src/app/main.py lines 50-53):
`await asyncio.sleep(0.1)`; the registry is not touched. -/
def disconnect (r : Registry) (d : Device) : Aw Unit × Registry :=
  ({ duration := 1
     events := [{ tag := 0, label := "disconnect " ++ d.name }]
     result := .ok () },
   r)

/-- The execute phase inside `send_message` (src/app/main.py line 64):
`await asyncio.sleep(0.5)` followed by the "executed" print. -/
def executePhase (d : Device) (message : String) : Aw Unit :=
  { duration := 5
    events := [{ tag := 0, label := "execute " ++ d.name ++ ": " ++ message }]
    result := .ok () }

/-- Embedding of `IoTService.send_message` (src/app/main.py lines
57-69): straight-line `await self.connect(device)`, `await
asyncio.sleep(0.5)`, `await self.disconnect(device)`.  The method
receives the `Device` object itself (no identifier, no registry
lookup), contains no `try`/`except`, and returns `None`. -/
def send_message (r : Registry) (d : Device) (message : String) :
    Aw Unit × Registry :=
  let c := connect r d
  let dc := disconnect c.2 d
  (awaitSeq c.1 (awaitSeq (executePhase d message) dc.1), dc.2)

/-- The control-flow skeleton of `send_message` with the three phase
awaitables abstracted (the spec's "device backend" collaborator, whose
phases may fail).  The source instantiates the phases with the
always-succeeding sleeps above; the straight-line awaits — with no
`try`/`finally` — are kept exactly. -/
def send_message_phases (connectA executeA disconnectA : Aw Unit) : Aw Unit :=
  awaitSeq connectA (awaitSeq executeA disconnectA)

/-- The three devices built in `main` (src/app/main.py lines 82-85). -/
def coffee_machine : Device := { name := "Smart Coffee Machine" }

/-- The smart speaker of `main`. -/
def speaker : Device := { name := "Smart Speaker" }

/-- The smart toilet of `main`. -/
def smart_toilet : Device := { name := "Smart Toilet" }

/-- Registry state after the registration phase of `main` (the three
`register_device` calls, fanned out by `run_parallel`). -/
def reg3 : Registry :=
  (register_device
    (register_device
      (register_device [] coffee_machine).2 speaker).2 smart_toilet).2

/-- The three per-device two-step sequences composed in parallel by the
wake-up phase of `main` (src/app/main.py lines 117-135). -/
def wake_children : List (Aw Unit) :=
  [ run_sequence
      [ (send_message reg3 speaker "switch on").1
      , (send_message reg3 speaker "play music").1 ]
  , run_sequence
      [ (send_message reg3 coffee_machine "switch on").1
      , (send_message reg3 coffee_machine "make coffee").1 ]
  , run_sequence
      [ (send_message reg3 smart_toilet "flush").1
      , (send_message reg3 smart_toilet "clean").1 ] ]

/-- Instrumentation for ordering claims: `taggedFrom b fs` says child
`k` of `fs` (counting from `b`) emits only events tagged `b + k`, so
the tag of an event in a combined trace identifies which child produced
it. -/
def taggedFrom (b : Nat) : List (Aw Unit) → Bool
  | [] => true
  | f :: fs => (f.events.all fun ev => ev.tag = b) && taggedFrom (b + 1) fs

/-- Concrete test child: succeeds, tagged 0. -/
def seqChild1 : Aw Unit :=
  { duration := 1, events := [{ tag := 0, label := "child1" }], result := .ok () }

/-- Concrete test child: raises, tagged 1. -/
def seqChild2 : Aw Unit :=
  { duration := 1, events := [{ tag := 1, label := "child2" }], result := .error ("boom") }

/-- Concrete test child: succeeds, tagged 2. -/
def seqChild3 : Aw Unit :=
  { duration := 1, events := [{ tag := 2, label := "child3" }], result := .ok () }

/-- Concrete test child for the parallel combinator: fails immediately
(completes at time 1). -/
def parFailing : Aw Unit :=
  { duration := 1, events := [], result := .error ("boom") }

/-- Concrete test child for the parallel combinator: a slow sibling
that succeeds at time 10. -/
def parSlow : Aw Unit :=
  { duration := 10, events := [], result := .ok () }

/-- Concrete connect phase for exercising `send_message_phases`. -/
def connPhase : Aw Unit :=
  { duration := 1, events := [{ tag := 0, label := "connect" }], result := .ok () }

/-- Concrete failing execute phase for exercising `send_message_phases`. -/
def execFailPhase : Aw Unit :=
  { duration := 5, events := [{ tag := 0, label := "execute" }], result := .error ("exec failed") }

/-- Concrete disconnect phase for exercising `send_message_phases`. -/
def discPhase : Aw Unit :=
  { duration := 1, events := [{ tag := 0, label := "disconnect" }], result := .ok () }

/- ------------------------------------------------------------------
Helper lemmas
------------------------------------------------------------------ -/

/-- A slot that belongs to a child that completed at some point of the
completion order holds that child's own result. -/
theorem fillSlots_mem {n : Nat} {α : Type} (order : List (Fin n))
    (res : Fin n → α) (i : Fin n) (h : i ∈ order) :
    fillSlots order res i = some (res i) := by
  induction order with
  | nil => cases h
  | cons j rest ih =>
    by_cases hij : i = j
    · subst hij; simp [fillSlots]
    · have hmem : i ∈ rest := by
        rcases List.mem_cons.mp h with h1 | h1
        · exact absurd h1 hij
        · exact h1
      simp [fillSlots, hij, ih hmem]

/-- In the trace of `run_sequence` over children tagged from `b`, every
tag is at least `b` and the tags appear in nondecreasing order. -/
theorem run_sequence_tags_mono (b : Nat) (fs : List (Aw Unit))
    (h : taggedFrom b fs = true) :
    (∀ t ∈ (run_sequence fs).events.map Event.tag, b ≤ t) ∧
      ((run_sequence fs).events.map Event.tag).Pairwise (· ≤ ·) := by
  induction fs generalizing b with
  | nil => simp [run_sequence]
  | cons f fs ih =>
    have hsplit := h
    simp only [taggedFrom, Bool.and_eq_true, List.all_eq_true,
      decide_eq_true_eq] at hsplit
    obtain ⟨hf, hrest⟩ := hsplit
    have ihr := ih (b + 1) hrest
    have hftags : ∀ t ∈ f.events.map Event.tag, t = b := by
      intro t ht
      rcases List.mem_map.mp ht with ⟨ev, hev, rfl⟩
      exact hf ev hev
    have hfpair : (f.events.map Event.tag).Pairwise (· ≤ ·) := by
      apply List.pairwise_of_forall_mem_list
      intro x hx y hy
      rw [hftags x hx, hftags y hy]
    cases hres : f.result with
    | error e =>
      constructor
      · intro t ht
        simp only [run_sequence, hres] at ht
        exact (hftags t ht).ge
      · simp only [run_sequence, hres]
        exact hfpair
    | ok v =>
      constructor
      · intro t ht
        simp only [run_sequence, hres, List.map_append, List.mem_append] at ht
        rcases ht with ht | ht
        · exact (hftags t ht).ge
        · exact le_trans (Nat.le_succ b) (ihr.1 t ht)
      · simp only [run_sequence, hres, List.map_append]
        rw [List.pairwise_append]
        refine ⟨hfpair, ihr.2, ?_⟩
        intro x hx y hy
        rw [hftags x hx]
        exact le_trans (Nat.le_succ b) (ihr.1 y hy)

/-- When every child returns normally, `run_sequence` performs exactly
the children's actions, concatenated in listed order. -/
theorem run_sequence_events_all_ok (fs : List (Aw Unit))
    (h : ∀ f ∈ fs, f.result = .ok ()) :
    (run_sequence fs).events = (fs.map Aw.events).flatten := by
  induction fs with
  | nil => simp [run_sequence]
  | cons f fs ih =>
    have hf : f.result = .ok () := h f (List.mem_cons_self f fs)
    have hrest : ∀ g ∈ fs, g.result = .ok () :=
      fun g hg => h g (List.mem_cons_of_mem f hg)
    simp [run_sequence, hf, ih hrest]

/-- Behaviour of `run_sequence` when the first failing child sits after
a prefix of succeeding children: the loop runs the prefix and the
failing child, the exception propagates, and the suffix is dropped. -/
theorem run_sequence_aborts (pre : List (Aw Unit)) (f : Aw Unit)
    (post : List (Aw Unit)) (e : Err)
    (hpre : ∀ g ∈ pre, g.result = .ok ()) (hf : f.result = .error e) :
    run_sequence (pre ++ f :: post) =
      { duration := (pre.map Aw.duration).sum + f.duration
        events := (pre.map Aw.events).flatten ++ f.events
        result := .error e } := by
  induction pre with
  | nil => simp [run_sequence, hf]
  | cons g pre ih =>
    have hg : g.result = .ok () := hpre g (List.mem_cons_self g pre)
    have hrest : ∀ g0 ∈ pre, g0.result = .ok () :=
      fun g0 hg0 => hpre g0 (List.mem_cons_of_mem g hg0)
    simp [run_sequence, hg, ih hrest, Nat.add_assoc]

/-- When `firstFailure` reports nothing, no child fails. -/
theorem firstFailure_none {α : Type} (fs : List (Aw α))
    (h : firstFailure fs = none) :
    ∀ f ∈ fs, ∀ e, f.result ≠ .error e := by
  induction fs with
  | nil => intro f hf; cases hf
  | cons f fs ih =>
    intro f0 hf0 e he
    cases hres : f.result with
    | error ef =>
      cases hrec : firstFailure fs with
      | none => simp [firstFailure, hres, hrec] at h
      | some p =>
        simp only [firstFailure, hres, hrec] at h
        by_cases hlt : p.1 < f.duration <;> simp [hlt] at h
    | ok v =>
      have h2 : firstFailure fs = none := by
        simpa [firstFailure, hres] using h
      rcases List.mem_cons.mp hf0 with rfl | hf0
      · rw [hres] at he; cases he
      · exact ih h2 f0 hf0 e he

/-- Characterisation of `firstFailure`: when it reports `(t, e)`, some
child indeed fails with `e` at completion time `t`, and `t` is the
earliest completion time among all failing children. -/
theorem firstFailure_spec {α : Type} (fs : List (Aw α)) (t : Nat) (e : Err)
    (h : firstFailure fs = some (t, e)) :
    (∃ f ∈ fs, f.result = .error e ∧ f.duration = t) ∧
      ∀ f ∈ fs, (∃ e0, f.result = .error e0) → t ≤ f.duration := by
  induction fs generalizing t e with
  | nil => simp [firstFailure] at h
  | cons f fs ih =>
    cases hres : f.result with
    | ok v =>
      have h2 : firstFailure fs = some (t, e) := by
        simpa [firstFailure, hres] using h
      obtain ⟨⟨g, hg, hge, hgd⟩, hmin⟩ := ih t e h2
      refine ⟨⟨g, List.mem_cons_of_mem f hg, hge, hgd⟩, ?_⟩
      intro f0 hf0 hfail
      rcases List.mem_cons.mp hf0 with rfl | hf0
      · rcases hfail with ⟨e0, he0⟩
        rw [hres] at he0
        cases he0
      · exact hmin f0 hf0 hfail
    | error ef =>
      cases hrec : firstFailure fs with
      | none =>
        have ht : t = f.duration ∧ e = ef := by
          simp [firstFailure, hres, hrec] at h
          exact ⟨h.1.symm, h.2.symm⟩
        obtain ⟨rfl, rfl⟩ := ht
        refine ⟨⟨f, List.mem_cons_self f fs, hres, rfl⟩, ?_⟩
        intro f0 hf0 hfail
        rcases List.mem_cons.mp hf0 with rfl | hf0
        · exact le_refl _
        · rcases hfail with ⟨e0, he0⟩
          exact absurd he0 (firstFailure_none fs hrec f0 hf0 e0)
      | some p =>
        obtain ⟨t0, e0⟩ := p
        obtain ⟨⟨g, hg, hge, hgd⟩, hmin⟩ := ih t0 e0 hrec
        by_cases hlt : t0 < f.duration
        · have ht : t = t0 ∧ e = e0 := by
            simp [firstFailure, hres, hrec, hlt] at h
            exact ⟨h.1.symm, h.2.symm⟩
          obtain ⟨rfl, rfl⟩ := ht
          refine ⟨⟨g, List.mem_cons_of_mem f hg, hge, hgd⟩, ?_⟩
          intro f0 hf0 hfail
          rcases List.mem_cons.mp hf0 with rfl | hf0
          · exact le_of_lt hlt
          · exact hmin f0 hf0 hfail
        · have ht : t = f.duration ∧ e = ef := by
            simp [firstFailure, hres, hrec, hlt] at h
            exact ⟨h.1.symm, h.2.symm⟩
          obtain ⟨rfl, rfl⟩ := ht
          refine ⟨⟨f, List.mem_cons_self f fs, hres, rfl⟩, ?_⟩
          intro f0 hf0 hfail
          rcases List.mem_cons.mp hf0 with rfl | hf0
          · exact le_refl _
          · exact le_trans (Nat.le_of_not_lt hlt) (hmin f0 hf0 hfail)

/-- When no child fails, `gather` completes when the last child does
and yields one outcome per child. -/
theorem gather_all_ok {α : Type} (fs : List (Aw α))
    (h : firstFailure fs = none) :
    (gather fs).1 = maxDuration fs ∧
      ∃ vals, (gather fs).2 = .ok vals ∧ vals.length = fs.length := by
  refine ⟨by simp [gather, h], fs.filterMap (fun f => f.result.toOption), by simp [gather, h], ?_⟩
  have hok := firstFailure_none fs h
  clear h
  induction fs with
  | nil => simp
  | cons f fs ih =>
    have hf := hok f (List.mem_cons_self f fs)
    have hrest : ∀ g ∈ fs, ∀ e, g.result ≠ .error e :=
      fun g hg => hok g (List.mem_cons_of_mem f hg)
    cases hres : f.result with
    | error e => exact absurd hres (hf e)
    | ok v =>
      have hsome : f.result.toOption = some v := by rw [hres]; rfl
      simp [List.filterMap_cons, hsome, ih hrest]

/-- Reading back the key just assigned returns the assigned value. -/
theorem regLookup_dictInsert_self (r : Registry) (k : String) (v : Device) :
    regLookup (dictInsert r k v) k = some v := by
  induction r with
  | nil => simp [dictInsert, regLookup]
  | cons p r ih =>
    by_cases hk : p.1 = k
    · simp [dictInsert, hk, regLookup]
    · simp [dictInsert, hk, regLookup, ih]

/-- Assigning one key leaves every other key's binding unchanged. -/
theorem regLookup_dictInsert_other (r : Registry) (k k0 : String)
    (v : Device) (h : k0 ≠ k) :
    regLookup (dictInsert r k v) k0 = regLookup r k0 := by
  induction r with
  | nil => simp [dictInsert, regLookup, Ne.symm h]
  | cons p r ih =>
    by_cases hk : p.1 = k
    · subst hk
      have hne : p.1 ≠ k0 := fun hx => h hx.symm
      simp [dictInsert, regLookup, hne]
    · by_cases hk0 : p.1 = k0
      · simp [dictInsert, hk, regLookup, hk0, h]
      · simp [dictInsert, hk, regLookup, hk0, ih]

/-- Assigning to a key that is already present replaces the entry in
place: the dict does not grow. -/
theorem dictInsert_length_of_mem (r : Registry) (k : String) (v : Device)
    (h : regLookup r k ≠ none) :
    (dictInsert r k v).length = r.length := by
  induction r with
  | nil => simp [regLookup] at h
  | cons p r ih =>
    by_cases hk : p.1 = k
    · simp [dictInsert, hk]
    · have h2 : regLookup r k ≠ none := by
        simpa [regLookup, hk] using h
      simp [dictInsert, hk, ih h2]

/- ------------------------------------------------------------------
Claim theorems
------------------------------------------------------------------ -/

/-- Claim C1, counterexample: `run_parallel` does not return the
per-child outcomes.  Two singleton child lists whose children have
different outcomes (1 vs 2) produce the very same `run_parallel`
return value, so the return value cannot contain the child outcomes. -/
theorem run_parallel_discards_outcomes_cex :
    run_parallel [({ duration := 5, events := [], result := .ok 1 } : Aw Nat)] =
      run_parallel [({ duration := 5, events := [], result := .ok 2 } : Aw Nat)] ∧
      (1 : Nat) ≠ 2 :=
  ⟨rfl, by decide⟩

/-- Claim C1, amended: the gather step awaited by `run_parallel` does
collect, for every completion order that eventually completes all `N`
children, exactly the `N` per-child results in input-slot order, and
when no child fails its future holds one outcome per child; but
`run_parallel` itself discards that list and returns `None`. -/
theorem gather_collects_input_order {α : Type} (children : List α)
    (order : List (Fin children.length)) (hcov : ∀ i, i ∈ order)
    (fs : List (Aw α)) (hok : firstFailure fs = none) :
    (List.ofFn fun i => fillSlots order children.get i) = children.map some ∧
      ∃ vals, (gather fs).2 = .ok vals ∧ vals.length = fs.length ∧
        run_parallel fs = (maxDuration fs, .ok ()) := by
  constructor
  · have hfun : (fun i => fillSlots order children.get i) =
        (fun i => some (children.get i)) :=
      funext fun i => fillSlots_mem order children.get i (hcov i)
    rw [hfun]
    have hmap : children.map some = (List.ofFn children.get).map some := by
      rw [List.ofFn_get]
    rw [hmap, List.map_ofFn]
    rfl
  · obtain ⟨h1, vals, h2, h3⟩ := gather_all_ok fs hok
    refine ⟨vals, h2, h3, ?_⟩
    simp [run_parallel, h1, h2, Except.map]

/-- Witness for the amended C1 at concrete inputs: children `[10, 20]`
completing in reverse order `[1, 0]`, and a one-child all-ok gather. -/
theorem gather_collects_input_order_witness :
    ((List.ofFn fun i =>
        fillSlots [⟨1, by decide⟩, ⟨0, by decide⟩] ([10, 20] : List Nat).get i) =
      ([10, 20] : List Nat).map some ∧
      ∃ vals,
        (gather [({ duration := 3, events := [], result := .ok 7 } : Aw Nat)]).2 =
          .ok vals ∧
        vals.length = [({ duration := 3, events := [], result := .ok 7 } : Aw Nat)].length ∧
        run_parallel [({ duration := 3, events := [], result := .ok 7 } : Aw Nat)] =
          (maxDuration [({ duration := 3, events := [], result := .ok 7 } : Aw Nat)], .ok ())) :=
  gather_collects_input_order [10, 20] [⟨1, by decide⟩, ⟨0, by decide⟩]
    (by decide) [{ duration := 3, events := [], result := .ok 7 }] rfl

/-- Claim C2: `run_sequence` executes its children one at a time in
listed order.  If each child `k` emits only events tagged `k`, the tags
of the combined trace are nondecreasing — every action of child `i` has
happened before any action of child `i+1` begins — and when all
children succeed the trace is exactly the children's traces
concatenated in listed order. -/
theorem run_sequence_listed_order (fs : List (Aw Unit))
    (htag : taggedFrom 0 fs = true) :
    ((run_sequence fs).events.map Event.tag).Pairwise (· ≤ ·) ∧
      ((∀ f ∈ fs, f.result = .ok ()) →
        (run_sequence fs).events = (fs.map Aw.events).flatten) :=
  ⟨(run_sequence_tags_mono 0 fs htag).2, run_sequence_events_all_ok fs⟩

/-- Witness for C2 at a concrete three-child sequence (the failing
middle child also keeps the trace ordered). -/
theorem run_sequence_listed_order_witness :
    (((run_sequence [seqChild1, seqChild2, seqChild3]).events.map Event.tag).Pairwise
        (· ≤ ·) ∧
      ((∀ f ∈ [seqChild1, seqChild2, seqChild3], f.result = .ok ()) →
        (run_sequence [seqChild1, seqChild2, seqChild3]).events =
          ([seqChild1, seqChild2, seqChild3].map Aw.events).flatten)) :=
  run_sequence_listed_order [seqChild1, seqChild2, seqChild3] (by decide)

/-- Claim C3, counterexample: in a three-child sequence whose second
child raises, the third child never runs — its action is absent from
the trace and the exception propagates — refuting the fail-soft
claim that later children still execute. -/
theorem run_sequence_fail_soft_cex :
    (run_sequence [seqChild1, seqChild2, seqChild3]).events =
      [{ tag := 0, label := "child1" }, { tag := 1, label := "child2" }] ∧
      ({ tag := 2, label := "child3" } : Event) ∉
        (run_sequence [seqChild1, seqChild2, seqChild3]).events ∧
      (run_sequence [seqChild1, seqChild2, seqChild3]).result = .error ("boom") :=
  ⟨rfl, by decide, rfl⟩

/-- Claim C3, amended: a failing child stops `run_sequence`.  After a
prefix of succeeding children, the first failing child's exception
propagates out of the loop: the result is that exception, the trace
ends with the failing child's actions, and the remaining children are
never awaited (the behaviour does not depend on them at all). -/
theorem run_sequence_failure_stops (pre : List (Aw Unit)) (f : Aw Unit)
    (post post2 : List (Aw Unit)) (e : Err)
    (hpre : ∀ g ∈ pre, g.result = .ok ()) (hf : f.result = .error e) :
    run_sequence (pre ++ f :: post) = run_sequence (pre ++ f :: post2) ∧
      run_sequence (pre ++ f :: post) =
        { duration := (pre.map Aw.duration).sum + f.duration
          events := (pre.map Aw.events).flatten ++ f.events
          result := .error e } := by
  have h1 := run_sequence_aborts pre f post e hpre hf
  have h2 := run_sequence_aborts pre f post2 e hpre hf
  exact ⟨h1.trans h2.symm, h1⟩

/-- Witness for the amended C3 at a concrete input: the failing second
child makes the suffix irrelevant. -/
theorem run_sequence_failure_stops_witness :
    (run_sequence ([seqChild1] ++ seqChild2 :: [seqChild3]) =
        run_sequence ([seqChild1] ++ seqChild2 :: []) ∧
      run_sequence ([seqChild1] ++ seqChild2 :: [seqChild3]) =
        { duration := ([seqChild1].map Aw.duration).sum + seqChild2.duration
          events := ([seqChild1].map Aw.events).flatten ++ seqChild2.events
          result := .error ("boom") }) :=
  run_sequence_failure_stops [seqChild1] seqChild2 [seqChild3] [] ("boom")
    (by intro g hg; rw [List.mem_singleton.mp hg]; rfl) rfl

/-- Claim C4, counterexample: with a child failing at time 1 next to a
sibling that completes at time 10, `run_parallel` returns at time 1 —
before the sibling has completed — carrying the exception and no
collected outcomes, refuting "every sibling is awaited to completion
and every child's outcome is collected before the combinator
returns". -/
theorem run_parallel_fail_fast_cex :
    (run_parallel [parFailing, parSlow]).1 = 1 ∧
      maxDuration [parFailing, parSlow] = 10 ∧ (1 : Nat) < 10 ∧
      (run_parallel [parFailing, parSlow]).2 = .error ("boom") :=
  ⟨rfl, rfl, by decide, rfl⟩

/-- Claim C4, amended: a failing child does not cancel its siblings
(the model has no cancellation), but `run_parallel` resumes as soon as
the earliest failure completes: it returns that failure's exception at
that failure's completion time — the minimum over all failing
children — possibly before slower siblings complete, and collects no
outcomes. -/
theorem run_parallel_first_failure {α : Type} (fs : List (Aw α)) (t : Nat)
    (e : Err) (h : firstFailure fs = some (t, e)) :
    run_parallel fs = (t, .error e) ∧
      (∃ f ∈ fs, f.result = .error e ∧ f.duration = t) ∧
      ∀ f ∈ fs, (∃ e0, f.result = .error e0) → t ≤ f.duration := by
  obtain ⟨hex, hmin⟩ := firstFailure_spec fs t e h
  refine ⟨?_, hex, hmin⟩
  simp [run_parallel, gather, h, Except.map]

/-- Witness for the amended C4 at the concrete failing/slow pair. -/
theorem run_parallel_first_failure_witness :
    (run_parallel [parFailing, parSlow] = (1, .error ("boom")) ∧
      (∃ f ∈ [parFailing, parSlow], f.result = .error ("boom") ∧ f.duration = 1) ∧
      ∀ f ∈ [parFailing, parSlow],
        (∃ e0, f.result = .error e0) → 1 ≤ f.duration) :=
  run_parallel_first_failure [parFailing, parSlow] 1 ("boom") rfl

/-- Claim C5, counterexample: when the execute phase fails, the
`send_message` control flow (straight-line awaits, no `try`/`finally`)
never reaches the disconnect phase — its action is absent from the
trace — and the raw execute exception propagates; no `ExecutionError`
outcome value exists anywhere in the code. -/
theorem send_message_disconnect_skipped_cex :
    ({ tag := 0, label := "disconnect" } : Event) ∉
        (send_message_phases connPhase execFailPhase discPhase).events ∧
      (send_message_phases connPhase execFailPhase discPhase).result =
        .error ("exec failed") :=
  ⟨by decide, rfl⟩

/-- Claim C5, amended: if the execute phase raises after a successful
connect, `send_message` propagates that exception unchanged: the
disconnect phase is not attempted (its duration and actions do not
appear) and no dispatch-outcome value is produced. -/
theorem send_message_execute_failure (connectA execA disconnectA : Aw Unit)
    (e : Err) (hc : connectA.result = .ok ()) (hx : execA.result = .error e) :
    send_message_phases connectA execA disconnectA =
      { duration := connectA.duration + execA.duration
        events := connectA.events ++ execA.events
        result := .error e } := by
  simp [send_message_phases, awaitSeq, hc, hx]

/-- Witness for the amended C5 at the concrete phases. -/
theorem send_message_execute_failure_witness :
    send_message_phases connPhase execFailPhase discPhase =
      { duration := connPhase.duration + execFailPhase.duration
        events := connPhase.events ++ execFailPhase.events
        result := .error ("exec failed") } :=
  send_message_execute_failure connPhase execFailPhase discPhase
    ("exec failed") rfl rfl

/-- Claim C6, counterexample: dispatching to a device that was never
registered (empty registry) does not fail — there is no
`UnknownDeviceError` anywhere in the code — and all three phases
run: `send_message` receives the `Device` object itself and never
consults the registry. -/
theorem send_message_unregistered_cex :
    regLookup [] "ghost" = none ∧
      (send_message [] { name := "ghost" } "switch on").1.result = .ok () ∧
      (send_message [] { name := "ghost" } "switch on").1.events =
        [ { tag := 0, label := "connect ghost" }
        , { tag := 0, label := "execute ghost: switch on" }
        , { tag := 0, label := "disconnect ghost" } ] :=
  ⟨rfl, rfl, rfl⟩

/-- Claim C6, amended: `send_message` performs no registry lookup at
all — its awaitable behaviour is the same for any registry contents,
it leaves the registry untouched, it always succeeds, and it always
performs the connect, execute and disconnect phases in order,
registered or not. -/
theorem send_message_no_lookup (r r2 : Registry) (d : Device) (m : String) :
    (send_message r d m).1 = (send_message r2 d m).1 ∧
      (send_message r d m).2 = r ∧
      (send_message r d m).1.result = .ok () ∧
      (send_message r d m).1.events =
        [ { tag := 0, label := "connect " ++ d.name }
        , { tag := 0, label := "execute " ++ d.name ++ ": " ++ m }
        , { tag := 0, label := "disconnect " ++ d.name } ] :=
  ⟨rfl, rfl, rfl, rfl⟩

/-- Claim C7, counterexample: registering two devices that carry the
same display name completes twice yet leaves a single registry entry,
and `register_device` hands back no identifier (it returns `None`):
the "fresh unique identifier per registration" of the claim does not
exist — the key is the caller-chosen name. -/
theorem register_device_name_collision_cex :
    (register_device [] { name := "x" }).1.result = .ok () ∧
      (register_device (register_device [] { name := "x" }).2
          { name := "x" }).2.length = 1 :=
  ⟨rfl, rfl⟩

/-- Claim C7, amended: the identifier of a device is its display name.
Two registrations whose devices carry distinct names store two
separate entries and both devices are subsequently resolvable via
lookup by name; registrations sharing a name share one entry. -/
theorem register_device_distinct_names (r : Registry) (d1 d2 : Device)
    (h : d1.name ≠ d2.name) :
    regLookup (register_device (register_device r d1).2 d2).2 d2.name =
        some d2 ∧
      regLookup (register_device (register_device r d1).2 d2).2 d1.name =
        some d1 := by
  constructor
  · simp [register_device, regLookup_dictInsert_self]
  · simp [register_device,
      regLookup_dictInsert_other (dictInsert r d1.name d1) d2.name d1.name d2 h,
      regLookup_dictInsert_self]

/-- Witness for the amended C7 with two concretely named devices. -/
theorem register_device_distinct_names_witness :
    (regLookup (register_device (register_device [] { name := "a" }).2
          { name := "b" }).2 ("b") = some { name := "b" } ∧
      regLookup (register_device (register_device [] { name := "a" }).2
          { name := "b" }).2 ("a") = some { name := "a" }) :=
  register_device_distinct_names [] { name := "a" } { name := "b" } (by decide)

/-- Claim C8: `register_device` is the only mutator of the registry —
`connect`, `disconnect` and `send_message` all return the `devices`
mapping exactly as they received it. -/
theorem registry_unchanged_by_io (r : Registry) (d : Device) (m : String) :
    (connect r d).2 = r ∧ (disconnect r d).2 = r ∧
      (send_message r d m).2 = r :=
  ⟨rfl, rfl, rfl⟩

/-- Claim C9: the wake phase of `main` — three per-device two-step
sequences fanned out by `run_parallel` — takes the maximum over the
devices of the sum of that device's two step durations (1.4 simulated
seconds, i.e. 14 tenths), not the 4.2-second sum over all devices. -/
theorem wake_phase_time :
    (run_parallel wake_children).1 =
        max ((send_message reg3 speaker "switch on").1.duration +
              (send_message reg3 speaker "play music").1.duration)
          (max ((send_message reg3 coffee_machine "switch on").1.duration +
                (send_message reg3 coffee_machine "make coffee").1.duration)
            ((send_message reg3 smart_toilet "flush").1.duration +
              (send_message reg3 smart_toilet "clean").1.duration)) ∧
      (run_parallel wake_children).1 = 14 ∧
      (wake_children.map Aw.duration).sum = 42 ∧
      (run_parallel wake_children).1 ≠ (wake_children.map Aw.duration).sum := by
  refine ⟨rfl, rfl, rfl, by decide⟩

/-- Claim C10: the registry is keyed by display name.  Registering `d`
binds `d.name` to `d`; a later registration with the same name
overwrites that binding and does not grow the registry, so the entry
count can stay below the number of completed registrations. -/
theorem registry_keyed_by_name (r : Registry) (d d2 : Device)
    (h : d2.name = d.name) :
    regLookup (register_device r d).2 d.name = some d ∧
      regLookup (register_device (register_device r d).2 d2).2 d.name =
        some d2 ∧
      (register_device (register_device r d).2 d2).2.length =
        (register_device r d).2.length := by
  refine ⟨?_, ?_, ?_⟩
  · simp [register_device, regLookup_dictInsert_self]
  · simp [register_device, h, regLookup_dictInsert_self]
  · have hmem : regLookup (dictInsert r d.name d) d2.name ≠ none := by
      simp [h, regLookup_dictInsert_self]
    simpa [register_device] using
      dictInsert_length_of_mem (dictInsert r d.name d) d2.name d2 hmem

/-- Witness for C10: registering the same-named device twice leaves the
second device under the shared key without growing the registry. -/
theorem registry_keyed_by_name_witness :
    (regLookup (register_device [] { name := "x" }).2 ("x") =
        some { name := "x" } ∧
      regLookup (register_device (register_device [] { name := "x" }).2
          { name := "x" }).2 ("x") = some { name := "x" } ∧
      (register_device (register_device [] { name := "x" }).2
          { name := "x" }).2.length =
        (register_device [] { name := "x" }).2.length) :=
  registry_keyed_by_name [] { name := "x" } { name := "x" } rfl

end IoT
